import Mathlib

/-!
Verification development for the INSY7314 payment-portal backend.

JavaScript strings are modelled as `List Char`; Node `Buffer`s as
`List Nat` (each element a byte, i.e. `< 256`); `null`/`undefined`
as `Option`.  Randomness (`crypto.randomBytes`) is externalised as an
explicit `iv` argument, and `process.env` values as explicit `Option`
arguments.  Functions whose JavaScript bodies can throw are either
wrapped in `try/catch` in the source (then they are total `Option`
valued functions here, every exceptional path mapped to `none`) or are
embedded with `Except` so that the thrown exception is visible.
-/

namespace INSY7314

/-! ### Character classes and small JS string helpers -/

/-- The colon delimiter used by the cipher envelope. -/
def colonChar : Char := Char.ofNat 58

/-- Apostrophe (code 39), written by code point. -/
def aposChar : Char := Char.ofNat 39

/-- Double quote (code 34), written by code point. -/
def quoteChar : Char := Char.ofNat 34

/-- ASCII uppercase letter test, the semantics of the regex class `[A-Z]`. -/
def isUpperAlpha (c : Char) : Bool := 65 ≤ c.toNat && c.toNat ≤ 90

/-- ASCII lowercase letter test, the semantics of the regex class `[a-z]`. -/
def isLowerAlpha (c : Char) : Bool := 97 ≤ c.toNat && c.toNat ≤ 122

/-- ASCII digit test, the semantics of the regex class `[0-9]`. -/
def isDigitChar (c : Char) : Bool := 48 ≤ c.toNat && c.toNat ≤ 57

/-- The regex class `[A-Z0-9]`. -/
def isAlnumUpper (c : Char) : Bool := isUpperAlpha c || isDigitChar c

/-- ASCII whitespace, modelling the JS regex class `\s` and `trim()`
on the ASCII range (tab, newline, vertical tab, form feed, carriage
return, space). -/
def isWsChar (c : Char) : Bool :=
  c.toNat = 32 || (9 ≤ c.toNat && c.toNat ≤ 13)

/-- The `String.prototype.toUpperCase` restricted to the ASCII range, which
is the only range the validators exercise. -/
def jsToUpper (c : Char) : Char :=
  if isLowerAlpha c then Char.ofNat (c.toNat - 32) else c

/-- The `String.prototype.trim` on the ASCII whitespace model. -/
def jsTrim (s : List Char) : List Char :=
  ((s.dropWhile isWsChar).reverse.dropWhile isWsChar).reverse

/-- Single-pass global replacement of one character by a string:
`s.replace(/t/g, r)`. -/
def replaceChar (t : Char) (r : List Char) : List Char → List Char
  | [] => []
  | c :: cs => (if c = t then r else [c]) ++ replaceChar t r cs

/-- The `String.prototype.split(sep)` for a one-character separator,
with the JS semantics that the empty string splits to `[""]`. -/
def splitOnChar (sep : Char) : List Char → List (List Char)
  | [] => [[]]
  | c :: cs =>
    if c = sep then [] :: splitOnChar sep cs
    else
      match splitOnChar sep cs with
      | [] => [[c]]
      | p :: ps => (c :: p) :: ps

/-! ### Hex codec (Node `Buffer.toString(hex)` / `Buffer.from(s, hex)`) -/

/-- Lowercase hex digit for a nibble, as Node emits. -/
def hexDigit (n : Nat) : Char :=
  Char.ofNat (if n < 10 then 48 + n else 87 + n)

/-- Hex-encode a byte list (two lowercase digits per byte). -/
def hexEncode : List Nat → List Char
  | [] => []
  | b :: bs => hexDigit (b / 16) :: hexDigit (b % 16) :: hexEncode bs

/-- Value of one hex digit, accepting both cases as Node does. -/
def hexVal (c : Char) : Option Nat :=
  let n := c.toNat
  if 48 ≤ n ∧ n ≤ 57 then some (n - 48)
  else if 97 ≤ n ∧ n ≤ 102 then some (n - 87)
  else if 65 ≤ n ∧ n ≤ 70 then some (n - 55)
  else none

/-- Hex-decode a character list with the lenient Node semantics
(`Buffer.from(s, hex)` and the hex input decoding of
`decipher.update`): bytes are read two digits at a time and decoding
stops — successfully, keeping the prefix — at the first invalid
character or at a dangling trailing digit.  It never fails. -/
def hexDecode : List Char → List Nat
  | c1 :: c2 :: cs =>
    match hexVal c1, hexVal c2 with
    | some h, some l => (16 * h + l) :: hexDecode cs
    | _, _ => []
  | _ => []

/-- A string that hex-decodes losslessly: even length, every
character a hex digit. -/
def isHexString (s : List Char) : Bool :=
  s.length % 2 == 0 && s.all (fun c => (hexVal c).isSome)

/-! ### Byte codec for plaintexts

Modelled from the spec: the UTF-8 codec of Node `Buffer`
(`cipher.update(text, utf8, hex)` and its inverse), which is not part
of this repository, is modelled as an injective character-to-bytes
codec: each Unicode scalar is emitted as four big-endian base-256
digits.  The only properties the spec relies on are injectivity and
the decode-encode inverse. -/

def charBytes (c : Char) : List Nat :=
  [c.toNat / 16777216, c.toNat / 65536 % 256, c.toNat / 256 % 256, c.toNat % 256]

def strBytes : List Char → List Nat
  | [] => []
  | c :: cs => charBytes c ++ strBytes cs

def bytesStr : List Nat → List Char
  | b3 :: b2 :: b1 :: b0 :: bs =>
    Char.ofNat (((b3 * 256 + b2) * 256 + b1) * 256 + b0) :: bytesStr bs
  | _ => []

/-! ### AEAD model

Modelled from the spec: Node `crypto` AES-256-GCM
(`createCipheriv` / `createDecipheriv` with `setAAD`, `getAuthTag`,
`setAuthTag`), which is external library code, modelled as an
authenticated stream cipher with the properties the spec states:
decryption with matching key, iv and AAD inverts encryption; the tag
binds key, iv, AAD and ciphertext, and any single-byte change of the
ciphertext, of the tag, or any change of AAD length is rejected. -/

/-- Keystream byte `i` of the modelled cipher. -/
def gcmKs (key iv : List Nat) (i : Nat) : Nat :=
  (key.sum * 7 + iv.sum * 13 + i * 31 + 5) % 256

/-- XOR the message with the keystream starting at position `i`.
Applying it twice at the same position is the identity, so the same
function is both the raw encryption and the raw decryption. -/
def gcmStream (key iv : List Nat) : Nat → List Nat → List Nat
  | _, [] => []
  | i, b :: bs => (b ^^^ gcmKs key iv i) :: gcmStream key iv (i + 1) bs

def gcmEnc (key iv m : List Nat) : List Nat := gcmStream key iv 0 m

/-- The 16-byte authentication tag of the modelled cipher.  It binds
the byte sum and length of the ciphertext, the AAD, the key and the
iv, which suffices for every tamper-detection property the spec
states. -/
def gcmTag (key iv aad ct : List Nat) : List Nat :=
  [ct.sum % 256, ct.length % 256, aad.sum % 256, aad.length % 256,
   key.sum % 256, key.length % 256, iv.sum % 256, iv.length % 256,
   0, 0, 0, 0, 0, 0, 0, 0]

/-- Authenticated decryption: recompute the tag and compare, as GCM
verification does; on mismatch the Node call throws, which every
caller in this repository catches. -/
def gcmOpen (key iv aad ct tag : List Nat) : Option (List Nat) :=
  if tag = gcmTag key iv aad ct then some (gcmStream key iv 0 ct) else none

/-- Modelled from the spec: `crypto.createHash(sha256).digest()`, the
key-derivation hash, modelled as an executable 32-byte digest.  The
only property used is that the three configured default secrets have
distinct digests, which is checked by evaluation. -/
def sha256Bytes (s : List Char) : List Nat :=
  (List.range 32).map
    (fun i => (s.foldl (fun a c => (a * 131 + c.toNat + 1) % 65536) (i + 17)) % 256)

/-! ### The three field-cipher modules

`backend/config/database.js` (AAD `pay`), `backend/models/database.js`
(AAD `payment-system`) and the models-layer config file
(`src/unnamed/part_003`, AAD `payment-system`) each define an
`encrypt`/`decrypt` pair over the same envelope format
`ivHex : tagHex : ctHex`. -/

/-- The `process.env.X || default`: the default is taken when the variable
is unset or set to the empty string (both falsy). -/
def jsOrDefault (v : Option (List Char)) (d : List Char) : List Char :=
  match v with
  | none => d
  | some s => if s = [] then d else s

def configDefaultSecret : List Char := "MySuperSecret32ByteKey1234567890".toList
def modelsDefaultSecret : List Char := "default-key-change-in-production".toList
def part003DefaultSecret : List Char := "change-me-32-chars-1234567890abc".toList

def configKey (env : Option (List Char)) : List Nat :=
  sha256Bytes (jsOrDefault env configDefaultSecret)
def modelsKey (env : Option (List Char)) : List Nat :=
  sha256Bytes (jsOrDefault env modelsDefaultSecret)
def part003Key (env : Option (List Char)) : List Nat :=
  sha256Bytes (jsOrDefault env part003DefaultSecret)

/-- The `Buffer.from(pay)` — the AAD of the config-layer cipher. -/
def aadPay : List Nat := strBytes "pay".toList

/-- The `Buffer.from(payment-system)` — the AAD of the models-layer and
part_003 ciphers. -/
def aadPaymentSystem : List Nat := strBytes "payment-system".toList

/-- Shared envelope builder: `ivHex : tagHex : ctHex`. -/
def mkEnvelope (iv tag ct : List Nat) : List Char :=
  hexEncode iv ++ colonChar :: (hexEncode tag ++ colonChar :: hexEncode ct)

/-- Core of every `encrypt` in the repository: the falsy guard
(`if (!text) return null`), then AES-256-GCM with a random iv and the
module AAD, then the hex envelope. -/
def encryptWith (key : List Nat) (aad : List Nat) (iv : List Nat)
    (text : List Char) : Option (List Char) :=
  if text = [] then none
  else
    let ct := gcmEnc key iv (strBytes text)
    some (mkEnvelope iv (gcmTag key iv aad ct) ct)

/-- Decrypt body shared by the three modules once the parts of the
envelope are in hand: hex-decode iv, tag and ciphertext leniently,
then authenticated decryption; a GCM failure throws in Node and every
caller catches it into `null`. -/
def decryptParts (key : List Nat) (aad : List Nat)
    (ivh tagh cth : List Char) : Option (List Char) :=
  match gcmOpen key (hexDecode ivh) aad (hexDecode cth) (hexDecode tagh) with
  | some m => some (bytesStr m)
  | none => none

/-- The `encrypt` of `backend/config/database.js`: AAD `pay`. -/
def configEncrypt (env : Option (List Char)) (iv : List Nat)
    (text : List Char) : Option (List Char) :=
  encryptWith (configKey env) aadPay iv text

/-- The `decrypt` of `backend/config/database.js`.  The destructuring
`[iv, tag, data] = text.split(:)` takes the first three parts and
ignores extras; with fewer than three parts the `Buffer.from` of an
`undefined` throws, which the surrounding `try` turns into `null`. -/
def configDecrypt (env : Option (List Char))
    (text : Option (List Char)) : Option (List Char) :=
  match text with
  | none => none
  | some s =>
    if s = [] then none
    else
      match splitOnChar colonChar s with
      | ivh :: tagh :: cth :: _ => decryptParts (configKey env) aadPay ivh tagh cth
      | _ => none

/-- The `encrypt` of `backend/models/database.js`: AAD `payment-system`. -/
def modelsEncrypt (env : Option (List Char)) (iv : List Nat)
    (text : List Char) : Option (List Char) :=
  encryptWith (modelsKey env) aadPaymentSystem iv text

/-- The `decrypt` of `backend/models/database.js`: checks
`parts.length !== 3` explicitly before decrypting. -/
def modelsDecrypt (env : Option (List Char))
    (text : Option (List Char)) : Option (List Char) :=
  match text with
  | none => none
  | some s =>
    if s = [] then none
    else
      match splitOnChar colonChar s with
      | [ivh, tagh, cth] => decryptParts (modelsKey env) aadPaymentSystem ivh tagh cth
      | _ => none

/-- The `encrypt` of the models-layer config file (`src/unnamed/part_003`):
AAD `payment-system`, its own default secret. -/
def part003Encrypt (env : Option (List Char)) (iv : List Nat)
    (text : List Char) : Option (List Char) :=
  encryptWith (part003Key env) aadPaymentSystem iv text

/-- The `decrypt` of `src/unnamed/part_003`: destructuring split like the
config-layer decrypt. -/
def part003Decrypt (env : Option (List Char))
    (text : Option (List Char)) : Option (List Char) :=
  match text with
  | none => none
  | some s =>
    if s = [] then none
    else
      match splitOnChar colonChar s with
      | ivh :: tagh :: cth :: _ =>
        decryptParts (part003Key env) aadPaymentSystem ivh tagh cth
      | _ => none

/-! ### Account lockout

Two distinct implementations exist.  The config-layer helper
`incrementLoginAttempts` (`backend/config/database.js` lines 47-54 and
`src/unnamed/part_003` lines 75-86, identical logic) works on a user
with `loginAttempts`/`lockUntil`; the controller `login`
(`backend/controllers/paymentController.js`) works on a user with
`failedLoginAttempts`/`accountLockedUntil`.  Timestamps are modelled
as `Nat` milliseconds (`Date.now()`). -/

/-- The user row as the config-layer helper sees it.  The JS
`(user.loginAttempts || 0)` default is folded into the `Nat` field. -/
structure LockUser where
  loginAttempts : Nat
  lockUntil : Option Nat
  deriving DecidableEq, Repr

/-- The `incrementLoginAttempts` of `backend/config/database.js` (and of
`src/unnamed/part_003`): always increments; at five or more attempts
sets `lockUntil` to now + 15 minutes; never resets the counter. -/
def incrementLoginAttempts (now : Nat) (u : LockUser) : LockUser :=
  let a := u.loginAttempts + 1
  { loginAttempts := a
    lockUntil := if a ≥ 5 then some (now + 15 * 60 * 1000) else u.lockUntil }

/-- The `resetLoginAttempts` of the same modules. -/
def resetLoginAttempts (u : LockUser) : LockUser :=
  { u with loginAttempts := 0, lockUntil := none }

/-- The user row as the controller login sees it. -/
structure CtrlUser where
  failedLoginAttempts : Nat
  accountLockedUntil : Option Nat
  lastLogin : Option Nat
  deriving DecidableEq, Repr

/-- The `u.accountLockedUntil && u.accountLockedUntil > new Date()`. -/
def lockActive (lockUntil : Option Nat) (now : Nat) : Bool :=
  match lockUntil with
  | none => false
  | some t => now < t

/-- The observable outcome of the controller login. -/
inductive LoginResp where
  /-- 403, account temporarily locked (generic message). -/
  | lockedOut : LoginResp
  /-- 403, account locked by this very attempt (fifth failure). -/
  | lockedNow : LoginResp
  /-- 401, invalid credentials, with the reported remaining attempts. -/
  | invalid (remaining : Int) : LoginResp
  /-- 200, token issued. -/
  | success : LoginResp
  deriving DecidableEq, Repr

/-- The `login` handler of
`backend/controllers/paymentController.js` after the user has been
found, as a pure transition on the user row.  The bcrypt comparison
(external) is the boolean `isMatch`.  The source first checks the
lock, then the password; on failure it increments
`failedLoginAttempts` in the store and tests the stale in-memory
value plus one against the threshold; at the threshold it overwrites
the counter with 0 and sets the lock to now + 30 minutes. -/
def loginStep (now : Nat) (u : CtrlUser) (isMatch : Bool) :
    LoginResp × CtrlUser :=
  if lockActive u.accountLockedUntil now then (.lockedOut, u)
  else if !isMatch then
    let a := u.failedLoginAttempts + 1
    if a ≥ 5 then
      (.lockedNow,
       { u with failedLoginAttempts := 0,
                accountLockedUntil := some (now + 30 * 60 * 1000) })
    else (.invalid (5 - (a : Int)), { u with failedLoginAttempts := a })
  else
    let u1 :=
      if u.failedLoginAttempts > 0 then
        { u with failedLoginAttempts := 0, accountLockedUntil := none }
      else u
    (.success, { u1 with lastLogin := some now })

/-- Outcome of the `authenticate` middleware lock check
(`src/unnamed/part_004`). -/
inductive AuthOutcome where
  | deactivated : AuthOutcome
  | lockedOut : AuthOutcome
  | proceed : AuthOutcome
  deriving DecidableEq, Repr

/-- The account-state checks of the `authenticate` middleware
(`src/unnamed/part_004` lines 35-55): deactivated, then locked, then
proceed.  The middleware performs no write to the user row at all, so
it is a pure classifier. -/
def authenticateCheck (now : Nat) (u : CtrlUser) (isActive : Bool) :
    AuthOutcome :=
  if !isActive then .deactivated
  else if lockActive u.accountLockedUntil now then .lockedOut
  else .proceed

/-! ### Payment persistence paths -/

/-- The Sequelize `Payment` row fields touched by the lifecycle hooks
(`backend/controllers/paymentController.js` — the file opens with the
`Payments` model — lines 51-63).  JS strings or `null` are
`Option (List Char)`. -/
structure PaymentRec where
  referenceNumber : Option (List Char)
  beneficiaryName : Option (List Char)
  beneficiaryAccount : Option (List Char)
  swiftCode : Option (List Char)
  deriving DecidableEq, Repr

/-- The `encrypt` lifted to a nullable JS value: `encrypt(null)` hits the
falsy guard and returns `null`. -/
def encryptJs (env : Option (List Char)) (iv : List Nat)
    (v : Option (List Char)) : Option (List Char) :=
  match v with
  | none => none
  | some s => configEncrypt env iv s

/-- The `beforeCreate` hook of the Sequelize `Payment` model: default
the reference number, then encrypt `beneficiaryName` and
`beneficiaryAccount` with the config-layer cipher.  `swiftCode` is not
touched. -/
def paymentBeforeCreate (env : Option (List Char)) (iv1 iv2 : List Nat)
    (now : Nat) (p : PaymentRec) : PaymentRec :=
  { referenceNumber :=
      match p.referenceNumber with
      | none => some ("PAY-".toList ++ Nat.toDigits 10 now)
      | some r => some r
    beneficiaryName := encryptJs env iv1 p.beneficiaryName
    beneficiaryAccount := encryptJs env iv2 p.beneficiaryAccount
    swiftCode := p.swiftCode }

/-- The `beforeUpdate` hook: re-encrypt `beneficiaryName` and
`beneficiaryAccount` exactly when Sequelize reports them changed.
`swiftCode` is again not touched. -/
def paymentBeforeUpdate (env : Option (List Char)) (iv1 iv2 : List Nat)
    (changedName changedAccount : Bool) (p : PaymentRec) : PaymentRec :=
  { p with
    beneficiaryName :=
      if changedName then encryptJs env iv1 p.beneficiaryName
      else p.beneficiaryName
    beneficiaryAccount :=
      if changedAccount then encryptJs env iv2 p.beneficiaryAccount
      else p.beneficiaryAccount }

/-- The sqlite payment row as persisted by `createPayment` of
`backend/models/database.js` (sensitive columns only). -/
structure SqlitePaymentRow where
  beneficiaryAccountNumber : Option (List Char)
  beneficiarySwiftCode : Option (List Char)
  beneficiaryName : Option (List Char)
  deriving DecidableEq, Repr

/-- The POST / handler of `backend/routes/payments.js` composed with
`createPayment` of `backend/models/database.js`: the route encrypts
all three beneficiary fields with the models-layer cipher and
`createPayment` inserts them verbatim. -/
def routeCreatePayment (env : Option (List Char)) (iv1 iv2 iv3 : List Nat)
    (accountNumber swiftCode name : List Char) : SqlitePaymentRow :=
  { beneficiaryAccountNumber := modelsEncrypt env iv1 accountNumber
    beneficiarySwiftCode := modelsEncrypt env iv2 swiftCode
    beneficiaryName := modelsEncrypt env iv3 name }

/-- An envelope-shaped string: exactly three colon-separated parts,
each of them lossless hex — the shape every successful `encrypt`
emits. -/
def envelopeShaped (v : Option (List Char)) : Bool :=
  match v with
  | none => false
  | some s =>
    match splitOnChar colonChar s with
    | [a, b, c] => isHexString a && isHexString b && isHexString c
    | _ => false

/-! ### Password hashing cost factors -/

/-- The `SALT_ROUNDS` of the `beforeCreate` hook in
`backend/models/User.js` (both copies of the hook). -/
def userModelSaltRounds : Nat := 10

/-- The `saltRounds` of the register route in `backend/routes/auth.js`. -/
def authRegisterSaltRounds : Nat := 12

/-- The `SALT_ROUNDS` of the credential-hasher utility
(`src/unnamed/part_000`). -/
def securityUtilsSaltRounds : Nat := 12

/-! ### Validation layer (`backend/utils/validators.js`) -/

/-- The sequential XSS-escaping replacements of `sanitizeInput`, in
source order: ampersand, less-than, greater-than, double quote,
apostrophe, slash. -/
def xssEscape (s : List Char) : List Char :=
  replaceChar '/' "&#x2F;".toList
    (replaceChar aposChar ("&#x27".toList ++ [Char.ofNat 59])
      (replaceChar quoteChar "&quot;".toList
        (replaceChar (Char.ofNat 62) "&gt;".toList
          (replaceChar (Char.ofNat 60) "&lt;".toList
            (replaceChar (Char.ofNat 38) "&amp;".toList s)))))

/-- The `sanitizeInput(input, swiftCode)` for a string input: escape,
trim, uppercase, strip non-alphanumerics. -/
def sanitizeSwift (s : List Char) : List Char :=
  ((jsTrim (xssEscape s)).map jsToUpper).filter isAlnumUpper

/-- The `sanitizeInput(input, iban)` for a string input: escape, trim,
uppercase, remove whitespace. -/
def sanitizeIban (s : List Char) : List Char :=
  ((jsTrim (xssEscape s)).map jsToUpper).filter (fun c => !isWsChar c)

/-- The anchored SWIFT pattern `[A-Z]{6}[A-Z0-9]{2}([A-Z0-9]{3})?`:
length 8 or 11, six uppercase letters, then alphanumerics. -/
def swiftPatternTest (t : List Char) : Bool :=
  (t.length == 8 || t.length == 11) &&
    (t.take 6).all isUpperAlpha && (t.drop 6).all isAlnumUpper

/-- The `validateSwiftCode`: falsy guard (`null`, `undefined` or the empty
string give `false`), sanitize, then the anchored pattern test. -/
def validateSwiftCode (swiftCode : Option (List Char)) : Bool :=
  match swiftCode with
  | none => false
  | some s => if s = [] then false else swiftPatternTest (sanitizeSwift s)

/-- The anchored IBAN shape `[A-Z]{2}\d{2}[A-Z0-9]{1,30}`. -/
def ibanFormatTest (t : List Char) : Bool :=
  match t with
  | a :: b :: c :: d :: rest =>
    isUpperAlpha a && isUpperAlpha b && isDigitChar c && isDigitChar d &&
      decide (1 ≤ rest.length) && decide (rest.length ≤ 30) &&
      rest.all isAlnumUpper
  | _ => false

/-- The numeric-substitution step of `validateIban`: a letter A-Z
becomes the two decimal digits of `code - 55` (10..35), a digit stays
itself, anything else aborts (the in-loop `return false`). -/
def ibanDigits : List Char → Option (List Nat)
  | [] => some []
  | c :: cs =>
    let n := c.toNat
    if 65 ≤ n ∧ n ≤ 90 then
      match ibanDigits cs with
      | some ds => some ((n - 55) / 10 :: (n - 55) % 10 :: ds)
      | none => none
    else if 48 ≤ n ∧ n ≤ 57 then
      match ibanDigits cs with
      | some ds => some ((n - 48) :: ds)
      | none => none
    else none

/-- The incremental remainder loop of `validateIban`: starting from
the empty remainder string, append the next digit and reduce mod 97.
`parseInt` of the at-most-three-digit decimal string is exact. -/
def ibanRemainder (ds : List Nat) : Nat :=
  ds.foldl (fun r d => (r * 10 + d) % 97) 0

/-- The `validateIban`: falsy guard, sanitize, shape check, rearrange
(first four characters to the end), numeric substitution, incremental
mod-97 remainder, accept exactly remainder 1. -/
def validateIban (iban : Option (List Char)) : Bool :=
  match iban with
  | none => false
  | some s =>
    if s = [] then false
    else
      let t := sanitizeIban s
      if !ibanFormatTest t then false
      else
        match ibanDigits (t.drop 4 ++ t.take 4) with
        | some ds => ibanRemainder ds == 1
        | none => false

/-- A JS runtime value, as far as the validators inspect one. -/
inductive JsValue where
  | nullV : JsValue
  | undefinedV : JsValue
  | strV (s : List Char) : JsValue
  | numV (n : Int) : JsValue
  | boolV (b : Bool) : JsValue
  deriving DecidableEq, Repr

/-- A thrown JS exception, by message. -/
inductive JsError where
  | referenceError (ident : List Char) : JsError
  deriving DecidableEq, Repr

/-- The `validateInput(input, type)` of `backend/utils/validators.js`
lines 111-120, with exceptions made explicit.  After the null and
typeof guards the body evaluates `patterns[type]`, but no binding
named `patterns` exists anywhere in the module, so every string input
reaches a `ReferenceError`. -/
def validateInputJs (input : JsValue) (ty : List Char) :
    Except JsError Bool :=
  match input with
  | .nullV => .ok false
  | .undefinedV => .ok false
  | .strV _ =>
    let _ := ty
    .error (.referenceError "patterns".toList)
  | _ => .ok false

/-- The `validateCountryCode` (lines 213-217): after the falsy guard the
body evaluates `validCountryCodes.has(...)`, but no binding named
`validCountryCodes` exists in the module, so every truthy string
input reaches a `ReferenceError`. -/
def validateCountryCode (code : Option (List Char)) : Except JsError Bool :=
  match code with
  | none => .ok false
  | some s =>
    if s = [] then .ok false
    else .error (.referenceError "validCountryCodes".toList)

/-- The `validateCurrency` (lines 222-226): the same pattern with the
undefined binding `supportedCurrencies`. -/
def validateCurrency (currency : Option (List Char)) : Except JsError Bool :=
  match currency with
  | none => .ok false
  | some s =>
    if s = [] then .ok false
    else .error (.referenceError "supportedCurrencies".toList)

/-! ### Concrete sample data and tampering helpers -/

/-- A 16-byte iv, standing for one output of `crypto.randomBytes(16)`. -/
def ivSample : List Nat := List.range 16

/-- The valid IBAN named by the spec. -/
def ibanSample : List Char := "GB82WEST12345698765432".toList

/-- The big decimal number denoted by a digit list (most significant
first) — the mathematical reading of the rearranged IBAN. -/
def ibanNumericValue (ds : List Nat) : Nat :=
  ds.foldl (fun r d => r * 10 + d) 0

/-- A concrete payment about to be created. -/
def paymentSample : PaymentRec :=
  { referenceNumber := none
    beneficiaryName := some "Alice Smith".toList
    beneficiaryAccount := some "12345678".toList
    swiftCode := some "DEUTDEFF".toList }

/-- A genuine envelope whose ciphertext byte `i` has been replaced by
`b` after the tag was computed. -/
def tamperedCtEnvelope (key aad iv : List Nat) (x : List Char)
    (i b : Nat) : List Char :=
  mkEnvelope iv (gcmTag key iv aad (gcmEnc key iv (strBytes x)))
    ((gcmEnc key iv (strBytes x)).set i b)

/-- A genuine envelope whose tag byte `j` has been replaced by `b`. -/
def tamperedTagEnvelope (key aad iv : List Nat) (x : List Char)
    (j b : Nat) : List Char :=
  mkEnvelope iv ((gcmTag key iv aad (gcmEnc key iv (strBytes x))).set j b)
    (gcmEnc key iv (strBytes x))

/-! ### Infrastructure lemmas -/

theorem char_toNat_lt (c : Char) : c.toNat < 4294967296 := by
  have := c.val.toNat_lt
  simpa using this

theorem charBytes_lt (c : Char) : ∀ b ∈ charBytes c, b < 256 := by
  have := char_toNat_lt c
  simp only [charBytes, List.mem_cons, List.not_mem_nil, or_false]
  intro b hb
  rcases hb with h | h | h | h <;> omega

theorem strBytes_lt (s : List Char) : ∀ b ∈ strBytes s, b < 256 := by
  induction s with
  | nil => simp [strBytes]
  | cons c cs ih =>
    simp only [strBytes, List.mem_append]
    intro b hb
    rcases hb with h | h
    · exact charBytes_lt c b h
    · exact ih b h

theorem bytesStr_strBytes (s : List Char) : bytesStr (strBytes s) = s := by
  induction s with
  | nil => rfl
  | cons c cs ih =>
    have hlt := char_toNat_lt c
    simp only [strBytes, charBytes, List.append_eq, List.cons_append,
      List.nil_append, bytesStr]
    rw [ih]
    congr 1
    have harith :
        ((c.toNat / 16777216 * 256 + c.toNat / 65536 % 256) * 256 +
            c.toNat / 256 % 256) * 256 + c.toNat % 256 = c.toNat := by
      omega
    rw [harith, Char.ofNat_toNat]

theorem gcmKs_lt (key iv : List Nat) (i : Nat) : gcmKs key iv i < 256 :=
  Nat.mod_lt _ (by omega)

theorem gcmStream_involutive (key iv : List Nat) :
    ∀ (m : List Nat) (i : Nat),
      gcmStream key iv i (gcmStream key iv i m) = m := by
  intro m
  induction m with
  | nil => intro i; rfl
  | cons b bs ih =>
    intro i
    simp only [gcmStream, Nat.xor_cancel_right, ih]

theorem gcmStream_length (key iv : List Nat) :
    ∀ (m : List Nat) (i : Nat), (gcmStream key iv i m).length = m.length := by
  intro m
  induction m with
  | nil => intro i; rfl
  | cons b bs ih => intro i; simp [gcmStream, ih]

theorem gcmStream_lt (key iv : List Nat) :
    ∀ (m : List Nat) (i : Nat), (∀ b ∈ m, b < 256) →
      ∀ b ∈ gcmStream key iv i m, b < 256 := by
  intro m
  induction m with
  | nil => intro i _; simp [gcmStream]
  | cons b bs ih =>
    intro i hm x hx
    simp only [gcmStream, List.mem_cons] at hx
    rcases hx with h | h
    · subst h
      have h1 : b < 256 := hm b (by simp)
      have h2 := gcmKs_lt key iv i
      have h3 : b ^^^ gcmKs key iv i < 2 ^ 8 :=
        Nat.xor_lt_two_pow (by omega) (by omega)
      omega
    · exact ih (i + 1) (fun y hy => hm y (by simp [hy])) x h

theorem gcmTag_lt (key iv aad ct : List Nat) :
    ∀ b ∈ gcmTag key iv aad ct, b < 256 := by
  simp only [gcmTag, List.mem_cons, List.not_mem_nil, or_false]
  intro b hb
  rcases hb with h | h | h | h | h | h | h | h | h | h | h | h | h | h | h | h <;>
    omega

theorem hexVal_hexDigit {n : Nat} (h : n < 16) : hexVal (hexDigit n) = some n := by
  interval_cases n <;> decide

theorem hexDigit_ne_colon {n : Nat} (h : n < 16) : hexDigit n ≠ colonChar := by
  interval_cases n <;> decide

theorem hexEncode_ne_colon (bs : List Nat) (hbs : ∀ b ∈ bs, b < 256) :
    ∀ c ∈ hexEncode bs, c ≠ colonChar := by
  induction bs with
  | nil => simp [hexEncode]
  | cons b bs ih =>
    have hb : b < 256 := hbs b (by simp)
    simp only [hexEncode, List.mem_cons]
    intro c hc
    rcases hc with h | h | h
    · subst h; exact hexDigit_ne_colon (by omega)
    · subst h; exact hexDigit_ne_colon (by omega)
    · exact ih (fun y hy => hbs y (by simp [hy])) c h

theorem hexDecode_hexEncode (bs : List Nat) (hbs : ∀ b ∈ bs, b < 256) :
    hexDecode (hexEncode bs) = bs := by
  induction bs with
  | nil => rfl
  | cons b bs ih =>
    have hb : b < 256 := hbs b (by simp)
    have hdiv : b / 16 < 16 := by omega
    have hmod : b % 16 < 16 := by omega
    have hrest := ih (fun y hy => hbs y (by simp [hy]))
    have hcons :
        hexDecode (hexDigit (b / 16) :: hexDigit (b % 16) :: hexEncode bs) =
          match hexVal (hexDigit (b / 16)), hexVal (hexDigit (b % 16)) with
          | some h, some l => (16 * h + l) :: hexDecode (hexEncode bs)
          | _, _ => [] := rfl
    simp only [hexEncode, hcons, hexVal_hexDigit hdiv, hexVal_hexDigit hmod, hrest]
    have hrec : 16 * (b / 16) + b % 16 = b := by omega
    rw [hrec]

/-- Lenient hex decoding of an encoding followed by garbage that
opens with an invalid character: decoding stops exactly at the
garbage and returns the encoded bytes — the Node truncate-and-succeed
behaviour. -/
theorem hexDecode_append_stop (bs : List Nat) (g : List Char)
    (hbs : ∀ b ∈ bs, b < 256) (hg : ∀ c ∈ g, hexVal c = none) :
    hexDecode (hexEncode bs ++ g) = bs := by
  induction bs with
  | nil =>
    simp only [hexEncode, List.nil_append]
    cases g with
    | nil => rfl
    | cons c1 t =>
      cases t with
      | nil => rfl
      | cons c2 t2 =>
        have h1 : hexVal c1 = none := hg c1 (by simp)
        simp [hexDecode, h1]
  | cons b bs ih =>
    have hb : b < 256 := hbs b (by simp)
    have hdiv : b / 16 < 16 := by omega
    have hmod : b % 16 < 16 := by omega
    have hrest := ih (fun y hy => hbs y (by simp [hy]))
    have hcons :
        hexDecode (hexDigit (b / 16) :: hexDigit (b % 16) ::
            (hexEncode bs ++ g)) =
          match hexVal (hexDigit (b / 16)), hexVal (hexDigit (b % 16)) with
          | some h, some l => (16 * h + l) :: hexDecode (hexEncode bs ++ g)
          | _, _ => [] := rfl
    simp only [hexEncode, List.cons_append, hcons, hexVal_hexDigit hdiv,
      hexVal_hexDigit hmod, hrest]
    have hrec : 16 * (b / 16) + b % 16 = b := by omega
    rw [hrec]

theorem hexEncode_length (bs : List Nat) :
    (hexEncode bs).length = 2 * bs.length := by
  induction bs with
  | nil => rfl
  | cons b bs ih => simp [hexEncode, ih]; omega

theorem hexEncode_chars_hex (bs : List Nat) (hbs : ∀ b ∈ bs, b < 256) :
    ∀ c ∈ hexEncode bs, (hexVal c).isSome = true := by
  induction bs with
  | nil => simp [hexEncode]
  | cons b bs ih =>
    have hb : b < 256 := hbs b (by simp)
    simp only [hexEncode, List.mem_cons]
    intro c hc
    rcases hc with h | h | h
    · subst h; rw [hexVal_hexDigit (show b / 16 < 16 by omega)]; rfl
    · subst h; rw [hexVal_hexDigit (show b % 16 < 16 by omega)]; rfl
    · exact ih (fun y hy => hbs y (by simp [hy])) c h

theorem hexEncode_isHexString (bs : List Nat) (hbs : ∀ b ∈ bs, b < 256) :
    isHexString (hexEncode bs) = true := by
  simp only [isHexString, Bool.and_eq_true, beq_iff_eq, List.all_eq_true]
  exact ⟨by rw [hexEncode_length]; omega, hexEncode_chars_hex bs hbs⟩

theorem splitOnChar_ne_nil (sep : Char) (s : List Char) :
    splitOnChar sep s ≠ [] := by
  induction s with
  | nil => simp [splitOnChar]
  | cons c cs ih =>
    by_cases h : c = sep
    · simp [splitOnChar, h]
    · simp only [splitOnChar, if_neg h]
      cases hs : splitOnChar sep cs <;> simp

theorem splitOnChar_single (sep : Char) (s : List Char)
    (h : ∀ c ∈ s, c ≠ sep) : splitOnChar sep s = [s] := by
  induction s with
  | nil => rfl
  | cons c cs ih =>
    have hc : c ≠ sep := h c (by simp)
    simp only [splitOnChar, if_neg hc, ih (fun y hy => h y (by simp [hy]))]

theorem splitOnChar_append (sep : Char) (a rest : List Char)
    (h : ∀ c ∈ a, c ≠ sep) :
    splitOnChar sep (a ++ sep :: rest) = a :: splitOnChar sep rest := by
  induction a with
  | nil => simp [splitOnChar]
  | cons c a ih =>
    have hc : c ≠ sep := h c (by simp)
    have ih' := ih (fun y hy => h y (by simp [hy]))
    simp only [List.cons_append, splitOnChar, if_neg hc]
    rw [show a.append (sep :: rest) = a ++ sep :: rest from rfl, ih']

theorem mkEnvelope_split (iv tag ct : List Nat)
    (hiv : ∀ b ∈ iv, b < 256) (htag : ∀ b ∈ tag, b < 256)
    (hct : ∀ b ∈ ct, b < 256) :
    splitOnChar colonChar (mkEnvelope iv tag ct) =
      [hexEncode iv, hexEncode tag, hexEncode ct] := by
  unfold mkEnvelope
  rw [splitOnChar_append colonChar _ _ (hexEncode_ne_colon iv hiv),
    splitOnChar_append colonChar _ _ (hexEncode_ne_colon tag htag),
    splitOnChar_single colonChar _ (hexEncode_ne_colon ct hct)]

theorem mkEnvelope_ne_nil (iv tag ct : List Nat) : mkEnvelope iv tag ct ≠ [] := by
  unfold mkEnvelope
  cases hexEncode iv <;> simp

theorem mkEnvelope_append_ne_nil (iv tag ct : List Nat) (z : List Char) :
    mkEnvelope iv tag ct ++ z ≠ [] := by
  intro h
  exact mkEnvelope_ne_nil iv tag ct (List.append_eq_nil.mp h).1

/-- Splitting a genuine envelope with a further colon and arbitrary
extra text appended: the first three parts are still the envelope
parts. -/
theorem splitOnChar_mkEnvelope_extra (iv tag ct : List Nat) (extra : List Char)
    (hiv : ∀ b ∈ iv, b < 256) (htag : ∀ b ∈ tag, b < 256)
    (hct : ∀ b ∈ ct, b < 256) :
    splitOnChar colonChar (mkEnvelope iv tag ct ++ colonChar :: extra) =
      hexEncode iv :: hexEncode tag :: hexEncode ct ::
        splitOnChar colonChar extra := by
  have hshape : mkEnvelope iv tag ct ++ colonChar :: extra =
      hexEncode iv ++ colonChar ::
        (hexEncode tag ++ colonChar :: (hexEncode ct ++ colonChar :: extra)) := by
    simp [mkEnvelope, List.append_assoc]
  rw [hshape, splitOnChar_append _ _ _ (hexEncode_ne_colon iv hiv),
    splitOnChar_append _ _ _ (hexEncode_ne_colon tag htag),
    splitOnChar_append _ _ _ (hexEncode_ne_colon ct hct)]

/-- Splitting a genuine envelope with colon-free garbage appended:
still exactly three parts, the garbage sticking to the ciphertext
part. -/
theorem splitOnChar_mkEnvelope_garbage (iv tag ct : List Nat) (g : List Char)
    (hiv : ∀ b ∈ iv, b < 256) (htag : ∀ b ∈ tag, b < 256)
    (hct : ∀ b ∈ ct, b < 256) (hgc : ∀ c ∈ g, c ≠ colonChar) :
    splitOnChar colonChar (mkEnvelope iv tag ct ++ g) =
      [hexEncode iv, hexEncode tag, hexEncode ct ++ g] := by
  have hshape : mkEnvelope iv tag ct ++ g =
      hexEncode iv ++ colonChar ::
        (hexEncode tag ++ colonChar :: (hexEncode ct ++ g)) := by
    simp [mkEnvelope, List.append_assoc]
  have hcg : ∀ c ∈ hexEncode ct ++ g, c ≠ colonChar := by
    intro c hc
    rcases List.mem_append.mp hc with h | h
    · exact hexEncode_ne_colon ct hct c h
    · exact hgc c h
  rw [hshape, splitOnChar_append _ _ _ (hexEncode_ne_colon iv hiv),
    splitOnChar_append _ _ _ (hexEncode_ne_colon tag htag),
    splitOnChar_single _ _ hcg]

theorem decryptParts_roundtrip (key aad iv : List Nat) (x : List Char)
    (hiv : ∀ b ∈ iv, b < 256) :
    decryptParts key aad (hexEncode iv)
      (hexEncode (gcmTag key iv aad (gcmEnc key iv (strBytes x))))
      (hexEncode (gcmEnc key iv (strBytes x))) = some x := by
  have hct : ∀ b ∈ gcmStream key iv 0 (strBytes x), b < 256 :=
    gcmStream_lt key iv (strBytes x) 0 (strBytes_lt x)
  have htag := gcmTag_lt key iv aad (gcmStream key iv 0 (strBytes x))
  simp only [decryptParts, gcmEnc, hexDecode_hexEncode iv hiv,
    hexDecode_hexEncode _ htag, hexDecode_hexEncode _ hct, gcmOpen, if_pos rfl,
    if_true, gcmStream_involutive, bytesStr_strBytes]

/-- Decrypting a genuine envelope whose ciphertext hex carries
trailing garbage opening with a non-hex character still yields the
plaintext: the lenient hex decoder drops the garbage and the tag then
matches. -/
theorem decryptParts_roundtrip_garbage (key aad iv : List Nat) (x : List Char)
    (g : List Char) (hiv : ∀ b ∈ iv, b < 256)
    (hg : ∀ c ∈ g, hexVal c = none) :
    decryptParts key aad (hexEncode iv)
      (hexEncode (gcmTag key iv aad (gcmEnc key iv (strBytes x))))
      (hexEncode (gcmEnc key iv (strBytes x)) ++ g) = some x := by
  have hct : ∀ b ∈ gcmStream key iv 0 (strBytes x), b < 256 :=
    gcmStream_lt key iv (strBytes x) 0 (strBytes_lt x)
  have htag := gcmTag_lt key iv aad (gcmStream key iv 0 (strBytes x))
  simp only [decryptParts, gcmEnc, hexDecode_hexEncode iv hiv,
    hexDecode_hexEncode _ htag, hexDecode_append_stop _ g hct hg, gcmOpen,
    if_pos rfl, if_true, gcmStream_involutive, bytesStr_strBytes]

theorem sum_set_add (l : List Nat) :
    ∀ (i : Nat) (b : Nat) (h : i < l.length),
      (l.set i b).sum + l.get ⟨i, h⟩ = l.sum + b := by
  induction l with
  | nil => intro i b h; simp at h
  | cons a l ih =>
    intro i b h
    cases i with
    | zero => simp [List.set, List.sum_cons]; omega
    | succ j =>
      have hj : j < l.length := by simpa using h
      have := ih j b hj
      simp only [List.set, List.sum_cons, List.get]
      omega

theorem set_lt (l : List Nat) (i b : Nat) (hb : b < 256)
    (hl : ∀ y ∈ l, y < 256) : ∀ y ∈ l.set i b, y < 256 := by
  intro y hy
  rcases List.mem_or_eq_of_mem_set hy with h | h
  · exact hl y h
  · omega

theorem gcmTag_ne_of_ct_set (key iv aad ct : List Nat) (i b : Nat)
    (h : i < ct.length) (hb : b < 256) (hct : ∀ y ∈ ct, y < 256)
    (hne : b ≠ ct.get ⟨i, h⟩) :
    gcmTag key iv aad (ct.set i b) ≠ gcmTag key iv aad ct := by
  intro heq
  have hsum : (ct.set i b).sum % 256 = ct.sum % 256 := by
    have := congrArg (fun l => l.headI) heq
    simpa [gcmTag] using this
  have hadd := sum_set_add ct i b h
  have hlt : ct.get ⟨i, h⟩ < 256 := hct _ (ct.get_mem i h)
  omega

theorem set_ne_self (l : List Nat) (j b : Nat) (h : j < l.length)
    (hne : b ≠ l.get ⟨j, h⟩) : l.set j b ≠ l := by
  intro heq
  have h2 := congrArg (fun t => t.get? j) heq
  simp only [List.get?_eq_getElem?] at h2
  rw [List.getElem?_set_self] at h2
  · simp [List.getElem?_eq_getElem h] at h2
    exact hne (by simpa [List.get_eq_getElem] using h2)
  · exact h

theorem gcmTag_pay_ne_paymentSystem (key1 key2 iv1 iv2 ct1 ct2 : List Nat) :
    gcmTag key1 iv1 aadPay ct1 ≠ gcmTag key2 iv2 aadPaymentSystem ct2 := by
  intro heq
  have : aadPay.length % 256 = aadPaymentSystem.length % 256 := by
    have := congrArg (fun l => l.get? 3) heq
    simpa [gcmTag] using this
  revert this
  decide

/-- With a nonempty configured secret, all three modules derive the
same key. -/
theorem keys_eq_of_env (s : List Char) (hs : s ≠ []) :
    configKey (some s) = sha256Bytes s ∧ modelsKey (some s) = sha256Bytes s ∧
      part003Key (some s) = sha256Bytes s := by
  refine ⟨?_, ?_, ?_⟩ <;> simp [configKey, modelsKey, part003Key, jsOrDefault, hs]

theorem ibanRemainder_foldl (ds : List Nat) :
    ∀ a : Nat, ds.foldl (fun r d => (r * 10 + d) % 97) (a % 97) =
      (ds.foldl (fun r d => r * 10 + d) a) % 97 := by
  induction ds with
  | nil => intro a; rfl
  | cons d ds ih =>
    intro a
    have hstep : (a % 97 * 10 + d) % 97 = (a * 10 + d) % 97 := by omega
    simp only [List.foldl_cons, hstep]
    have := ih (a * 10 + d)
    rw [← this]

/-- The incremental remainder loop computes exactly the big decimal
number mod 97. -/
theorem ibanRemainder_eq_mod (ds : List Nat) :
    ibanRemainder ds = (ds.foldl (fun r d => r * 10 + d) 0) % 97 := by
  have := ibanRemainder_foldl ds 0
  simpa [ibanRemainder] using this

theorem gcmEnc_lt (key iv : List Nat) (x : List Char) :
    ∀ b ∈ gcmEnc key iv (strBytes x), b < 256 :=
  gcmStream_lt key iv (strBytes x) 0 (strBytes_lt x)

theorem encryptWith_eq (key aad iv : List Nat) (x : List Char) (hx : x ≠ []) :
    encryptWith key aad iv x =
      some (mkEnvelope iv (gcmTag key iv aad (gcmEnc key iv (strBytes x)))
        (gcmEnc key iv (strBytes x))) := by
  simp [encryptWith, hx, mkEnvelope, gcmEnc]

theorem configDecrypt_envelope (env : Option (List Char)) (iv tag ct : List Nat)
    (hiv : ∀ b ∈ iv, b < 256) (htag : ∀ b ∈ tag, b < 256)
    (hct : ∀ b ∈ ct, b < 256) :
    configDecrypt env (some (mkEnvelope iv tag ct)) =
      decryptParts (configKey env) aadPay (hexEncode iv) (hexEncode tag)
        (hexEncode ct) := by
  simp only [configDecrypt]
  rw [if_neg (mkEnvelope_ne_nil iv tag ct),
    mkEnvelope_split iv tag ct hiv htag hct]

theorem modelsDecrypt_envelope (env : Option (List Char)) (iv tag ct : List Nat)
    (hiv : ∀ b ∈ iv, b < 256) (htag : ∀ b ∈ tag, b < 256)
    (hct : ∀ b ∈ ct, b < 256) :
    modelsDecrypt env (some (mkEnvelope iv tag ct)) =
      decryptParts (modelsKey env) aadPaymentSystem (hexEncode iv)
        (hexEncode tag) (hexEncode ct) := by
  simp only [modelsDecrypt]
  rw [if_neg (mkEnvelope_ne_nil iv tag ct),
    mkEnvelope_split iv tag ct hiv htag hct]

theorem part003Decrypt_envelope (env : Option (List Char)) (iv tag ct : List Nat)
    (hiv : ∀ b ∈ iv, b < 256) (htag : ∀ b ∈ tag, b < 256)
    (hct : ∀ b ∈ ct, b < 256) :
    part003Decrypt env (some (mkEnvelope iv tag ct)) =
      decryptParts (part003Key env) aadPaymentSystem (hexEncode iv)
        (hexEncode tag) (hexEncode ct) := by
  simp only [part003Decrypt]
  rw [if_neg (mkEnvelope_ne_nil iv tag ct),
    mkEnvelope_split iv tag ct hiv htag hct]

theorem decryptParts_ct_tamper (key aad iv ct : List Nat) (i b : Nat)
    (hiv : ∀ y ∈ iv, y < 256) (hct : ∀ y ∈ ct, y < 256) (hb : b < 256)
    (h : i < ct.length) (hne : b ≠ ct.get ⟨i, h⟩) :
    decryptParts key aad (hexEncode iv) (hexEncode (gcmTag key iv aad ct))
      (hexEncode (ct.set i b)) = none := by
  have hct' := set_lt ct i b hb hct
  have htag := gcmTag_lt key iv aad ct
  have hne' : gcmTag key iv aad ct ≠ gcmTag key iv aad (ct.set i b) :=
    fun hcontra =>
      gcmTag_ne_of_ct_set key iv aad ct i b h hb hct hne hcontra.symm
  simp only [decryptParts, hexDecode_hexEncode iv hiv,
    hexDecode_hexEncode _ htag, hexDecode_hexEncode _ hct', gcmOpen,
    if_neg hne']

theorem decryptParts_tag_tamper (key aad iv ct : List Nat) (j b : Nat)
    (hiv : ∀ y ∈ iv, y < 256) (hct : ∀ y ∈ ct, y < 256) (hb : b < 256)
    (h : j < (gcmTag key iv aad ct).length)
    (hne : b ≠ (gcmTag key iv aad ct).get ⟨j, h⟩) :
    decryptParts key aad (hexEncode iv)
      (hexEncode ((gcmTag key iv aad ct).set j b)) (hexEncode ct) = none := by
  have htag' := set_lt _ j b hb (gcmTag_lt key iv aad ct)
  have hne' : (gcmTag key iv aad ct).set j b ≠ gcmTag key iv aad ct :=
    set_ne_self _ j b h hne
  simp only [decryptParts, hexDecode_hexEncode iv hiv,
    hexDecode_hexEncode _ htag', hexDecode_hexEncode _ hct, gcmOpen,
    if_neg hne']

theorem decryptParts_pay_into_ps (key1 key2 iv ct : List Nat)
    (hiv : ∀ y ∈ iv, y < 256) (hct : ∀ y ∈ ct, y < 256) :
    decryptParts key2 aadPaymentSystem (hexEncode iv)
      (hexEncode (gcmTag key1 iv aadPay ct)) (hexEncode ct) = none := by
  have htag := gcmTag_lt key1 iv aadPay ct
  simp only [decryptParts, hexDecode_hexEncode iv hiv,
    hexDecode_hexEncode _ htag, hexDecode_hexEncode _ hct, gcmOpen,
    if_neg (gcmTag_pay_ne_paymentSystem key1 key2 iv iv ct ct)]

theorem decryptParts_ps_into_pay (key1 key2 iv ct : List Nat)
    (hiv : ∀ y ∈ iv, y < 256) (hct : ∀ y ∈ ct, y < 256) :
    decryptParts key2 aadPay (hexEncode iv)
      (hexEncode (gcmTag key1 iv aadPaymentSystem ct)) (hexEncode ct) = none := by
  have htag := gcmTag_lt key1 iv aadPaymentSystem ct
  have hne : gcmTag key1 iv aadPaymentSystem ct ≠ gcmTag key2 iv aadPay ct :=
    fun hcontra =>
      gcmTag_pay_ne_paymentSystem key2 key1 iv iv ct ct hcontra.symm
  simp only [decryptParts, hexDecode_hexEncode iv hiv,
    hexDecode_hexEncode _ htag, hexDecode_hexEncode _ hct, gcmOpen,
    if_neg hne]

theorem modelsDecrypt_not3 (env : Option (List Char)) (s : List Char)
    (h : (splitOnChar colonChar s).length ≠ 3) :
    modelsDecrypt env (some s) = none := by
  by_cases hs : s = []
  · subst hs; rfl
  · simp only [modelsDecrypt, if_neg hs]
    cases l1 : splitOnChar colonChar s with
    | nil => rfl
    | cons a t =>
      cases t with
      | nil => rfl
      | cons b t2 =>
        cases t2 with
        | nil => rfl
        | cons c t3 =>
          cases t3 with
          | nil =>
            exact absurd (by simp [l1] : (splitOnChar colonChar s).length = 3) h
          | cons d t4 => rfl

theorem configDecrypt_lt3 (env : Option (List Char)) (s : List Char)
    (h : (splitOnChar colonChar s).length < 3) :
    configDecrypt env (some s) = none := by
  by_cases hs : s = []
  · subst hs; rfl
  · simp only [configDecrypt, if_neg hs]
    cases l1 : splitOnChar colonChar s with
    | nil => rfl
    | cons a t =>
      cases t with
      | nil => rfl
      | cons b t2 =>
        cases t2 with
        | nil => rfl
        | cons c t3 =>
          rw [l1] at h
          simp at h
          omega

theorem envelopeShaped_encryptWith (key aad iv : List Nat) (x : List Char)
    (hx : x ≠ []) (hiv : ∀ b ∈ iv, b < 256) :
    envelopeShaped (encryptWith key aad iv x) = true := by
  rw [encryptWith_eq key aad iv x hx]
  have hct := gcmEnc_lt key iv x
  have htag := gcmTag_lt key iv aad (gcmEnc key iv (strBytes x))
  simp only [envelopeShaped, mkEnvelope_split iv _ _ hiv htag hct,
    Bool.and_eq_true]
  exact ⟨⟨hexEncode_isHexString iv hiv, hexEncode_isHexString _ htag⟩,
    hexEncode_isHexString _ hct⟩

/-! ### Claim theorems -/

/-- C2, counterexample: the falsy guard `if (!text) return null` makes
`encrypt` of the empty string `null`, and `decrypt(null)` is `null`,
so the round trip claimed for every plaintext string fails at the
empty string. -/
theorem c2_counterexample :
    configEncrypt none ivSample [] = none ∧
    configDecrypt none (configEncrypt none ivSample []) = none ∧
    configDecrypt none (configEncrypt none ivSample []) ≠ some [] := by
  refine ⟨rfl, rfl, by decide⟩

/-- C2 (amended): for every nonempty plaintext, each of the three
cipher modules decrypts its own envelope back to the plaintext (for
any configured secret and any 16-byte-range iv); the empty string maps
to `null` instead. -/
theorem c2_theorem :
    ∀ (env : Option (List Char)) (iv : List Nat) (x : List Char),
      x ≠ [] → (∀ b ∈ iv, b < 256) →
      configDecrypt env (configEncrypt env iv x) = some x ∧
      modelsDecrypt env (modelsEncrypt env iv x) = some x ∧
      part003Decrypt env (part003Encrypt env iv x) = some x := by
  intro env iv x hx hiv
  refine ⟨?_, ?_, ?_⟩
  · rw [configEncrypt, encryptWith_eq _ _ _ _ hx,
      configDecrypt_envelope env _ _ _ hiv (gcmTag_lt _ _ _ _) (gcmEnc_lt _ _ _),
      decryptParts_roundtrip _ _ _ _ hiv]
  · rw [modelsEncrypt, encryptWith_eq _ _ _ _ hx,
      modelsDecrypt_envelope env _ _ _ hiv (gcmTag_lt _ _ _ _) (gcmEnc_lt _ _ _),
      decryptParts_roundtrip _ _ _ _ hiv]
  · rw [part003Encrypt, encryptWith_eq _ _ _ _ hx,
      part003Decrypt_envelope env _ _ _ hiv (gcmTag_lt _ _ _ _) (gcmEnc_lt _ _ _),
      decryptParts_roundtrip _ _ _ _ hiv]

/-- C2, witness: the round trip evaluated on a concrete plaintext and
iv under the default secrets. -/
theorem c2_witness :
    configDecrypt none (configEncrypt none ivSample "hi".toList) =
      some "hi".toList ∧
    modelsDecrypt none (modelsEncrypt none ivSample "hi".toList) =
      some "hi".toList ∧
    part003Decrypt none (part003Encrypt none ivSample "hi".toList) =
      some "hi".toList :=
  c2_theorem none ivSample "hi".toList (by decide) (by decide)

/-- C1, counterexample: at the fifth failed attempt the config-layer
lockout helper `incrementLoginAttempts` sets the lock to now + 15
minutes — not the claimed 30 — and leaves the counter at 5 instead of
resetting it to 0. -/
theorem c1_counterexample :
    (incrementLoginAttempts 1000 { loginAttempts := 4, lockUntil := none }).loginAttempts = 5 ∧
    (incrementLoginAttempts 1000 { loginAttempts := 4, lockUntil := none }).loginAttempts ≠ 0 ∧
    (incrementLoginAttempts 1000 { loginAttempts := 4, lockUntil := none }).lockUntil =
      some (1000 + 15 * 60 * 1000) ∧
    (incrementLoginAttempts 1000 { loginAttempts := 4, lockUntil := none }).lockUntil ≠
      some (1000 + 30 * 60 * 1000) := by
  refine ⟨rfl, by decide, rfl, by decide⟩

/-- C1 (amended): the lockout behaviour at the threshold depends on
the implementation.  The controller login path locks for 30 minutes
and resets the counter to 0, as the claim states; the config-layer
helper `incrementLoginAttempts` (both copies) locks for only 15
minutes and leaves the counter at its incremented value. -/
theorem c1_theorem :
    (∀ (now : Nat) (u : CtrlUser),
       lockActive u.accountLockedUntil now = false →
       u.failedLoginAttempts + 1 ≥ 5 →
       loginStep now u false =
         (.lockedNow,
          { failedLoginAttempts := 0,
            accountLockedUntil := some (now + 30 * 60 * 1000),
            lastLogin := u.lastLogin })) ∧
    (∀ (now : Nat) (u : LockUser),
       u.loginAttempts + 1 ≥ 5 →
       incrementLoginAttempts now u =
         { loginAttempts := u.loginAttempts + 1,
           lockUntil := some (now + 15 * 60 * 1000) }) := by
  constructor
  · intro now u hlock hth
    simp [loginStep, hlock, hth]
  · intro now u h
    simp [incrementLoginAttempts, h]

/-- C1, witness: the amended claim evaluated at a user with four prior
failures. -/
theorem c1_witness :
    loginStep 1000
        { failedLoginAttempts := 4, accountLockedUntil := none, lastLogin := none }
        false =
      (.lockedNow,
       { failedLoginAttempts := 0, accountLockedUntil := some 1801000,
         lastLogin := none }) ∧
    incrementLoginAttempts 1000 { loginAttempts := 4, lockUntil := none } =
      { loginAttempts := 5, lockUntil := some 901000 } := by
  constructor
  · have h := c1_theorem.1 1000
      { failedLoginAttempts := 4, accountLockedUntil := none, lastLogin := none }
      (by decide) (by decide)
    simpa using h
  · have h := c1_theorem.2 1000 { loginAttempts := 4, lockUntil := none } (by decide)
    simpa using h

/-- C5: the cited validation functions are not total.  `validateInput`
evaluates `patterns[type]` although no binding named `patterns` exists
in the module, so every string input throws a `ReferenceError`;
`validateCountryCode` and `validateCurrency` likewise reference the
undefined `validCountryCodes` and `supportedCurrencies`.  Null,
undefined and non-string inputs still return `false` because the
guards run first. -/
theorem c5_theorem :
    validateInputJs (.strV "test@example.com".toList) "email".toList =
      .error (.referenceError "patterns".toList) ∧
    validateCountryCode (some "US".toList) =
      .error (.referenceError "validCountryCodes".toList) ∧
    validateCurrency (some "USD".toList) =
      .error (.referenceError "supportedCurrencies".toList) ∧
    validateInputJs .nullV "email".toList = .ok false ∧
    validateInputJs (.numV 5) "email".toList = .ok false ∧
    validateCountryCode none = .ok false ∧
    validateCurrency (some []) = .ok false := by
  refine ⟨rfl, rfl, rfl, rfl, rfl, rfl, rfl⟩

/-- C6, counterexample: the User-model `beforeCreate` hook hashes with
cost factor 10, below the claimed minimum of 12. -/
theorem c6_counterexample :
    userModelSaltRounds = 10 ∧ ¬ 12 ≤ userModelSaltRounds := by
  decide

/-- C6 (amended): the register route and the credential-hasher utility
use cost factor 12, but the User-model `beforeCreate` hook uses 10. -/
theorem c6_theorem :
    authRegisterSaltRounds = 12 ∧ securityUtilsSaltRounds = 12 ∧
      userModelSaltRounds = 10 ∧ userModelSaltRounds < 12 := by
  decide

/-- C10: while `accountLockedUntil` lies in the future, the login
handler answers with the generic locked error and returns the user row
unchanged, for either value of the password check — the check result
is never consulted, which is the source ordering (lock test before
`isValidPassword`).  The `authenticate` middleware classifies the same
state as locked and performs no write at all. -/
theorem c10_theorem :
    ∀ (now : Nat) (u : CtrlUser) (isMatch : Bool),
      lockActive u.accountLockedUntil now = true →
      loginStep now u isMatch = (.lockedOut, u) ∧
      authenticateCheck now u true = .lockedOut := by
  intro now u m h
  constructor
  · simp [loginStep, h]
  · simp [authenticateCheck, h]

/-- C10, witness: a user locked until time 2000, probed at time 1000
with a correct password. -/
theorem c10_witness :
    loginStep 1000
        { failedLoginAttempts := 2, accountLockedUntil := some 2000,
          lastLogin := none } true =
      (.lockedOut,
       { failedLoginAttempts := 2, accountLockedUntil := some 2000,
         lastLogin := none }) ∧
    authenticateCheck 1000
        { failedLoginAttempts := 2, accountLockedUntil := some 2000,
          lastLogin := none } true = .lockedOut := by
  exact c10_theorem 1000
    { failedLoginAttempts := 2, accountLockedUntil := some 2000, lastLogin := none }
    true (by decide)

set_option maxRecDepth 8000 in
/-- C4, counterexample: not every input outside the well-formed
untampered envelope format yields `null`.  A four-part string — a
genuine config-layer envelope with `:zz` appended, wrong delimiter
format per the claim — is decrypted to the plaintext by the
config-layer `decrypt`, whose array destructuring silently drops the
extra part; and a three-part string whose ciphertext hex carries
trailing non-hex garbage is decrypted to the plaintext by the
models-layer `decrypt`, because the Node hex decoder truncates at the
first invalid character and succeeds. -/
theorem c4_counterexample :
    (splitOnChar colonChar
        (((configEncrypt none ivSample "hi".toList).getD []) ++
          colonChar :: "zz".toList)).length = 4 ∧
    configDecrypt none
      (some (((configEncrypt none ivSample "hi".toList).getD []) ++
        colonChar :: "zz".toList)) = some "hi".toList ∧
    modelsDecrypt none
      (some (((modelsEncrypt none ivSample "hi".toList).getD []) ++
        "zz".toList)) = some "hi".toList := by
  refine ⟨by decide, by decide, by decide⟩

/-- C4 (amended): `decrypt` never lets an exception escape — the
whole body is inside `try/catch { return null }`, so the embeddings
are total — and returns `null` for tampered envelopes: flipping any
single byte of the ciphertext or of the auth tag of a genuine
envelope makes either decrypt return `null`, as does a string with
fewer than three colon-separated parts (either decrypt) or a part
count other than three (models-layer decrypt, which checks
`parts.length !== 3`).  But not every malformed input yields `null`:
the config-layer decrypt ignores parts beyond the first three, so a
genuine envelope with extra colon-separated parts appended still
decrypts to the plaintext, and both decrypts decrypt a genuine
envelope whose ciphertext hex carries trailing garbage that opens
with a non-hex, non-colon character, because Node hex decoding
truncates and succeeds. -/
theorem c4_theorem :
    (∀ (env : Option (List Char)) (s : List Char),
       (splitOnChar colonChar s).length ≠ 3 → modelsDecrypt env (some s) = none) ∧
    (∀ (env : Option (List Char)) (s : List Char),
       (splitOnChar colonChar s).length < 3 → configDecrypt env (some s) = none) ∧
    (∀ (env : Option (List Char)) (iv : List Nat) (x : List Char) (i b : Nat),
       (∀ y ∈ iv, y < 256) → b < 256 →
       ∀ h : i < (gcmEnc (modelsKey env) iv (strBytes x)).length,
         b ≠ (gcmEnc (modelsKey env) iv (strBytes x)).get ⟨i, h⟩ →
         modelsDecrypt env
           (some (tamperedCtEnvelope (modelsKey env) aadPaymentSystem iv x i b)) =
           none) ∧
    (∀ (env : Option (List Char)) (iv : List Nat) (x : List Char) (j b : Nat),
       (∀ y ∈ iv, y < 256) → b < 256 →
       ∀ h : j < (gcmTag (modelsKey env) iv aadPaymentSystem
                    (gcmEnc (modelsKey env) iv (strBytes x))).length,
         b ≠ (gcmTag (modelsKey env) iv aadPaymentSystem
                (gcmEnc (modelsKey env) iv (strBytes x))).get ⟨j, h⟩ →
         modelsDecrypt env
           (some (tamperedTagEnvelope (modelsKey env) aadPaymentSystem iv x j b)) =
           none) ∧
    (∀ (env : Option (List Char)) (iv : List Nat) (x : List Char) (i b : Nat),
       (∀ y ∈ iv, y < 256) → b < 256 →
       ∀ h : i < (gcmEnc (configKey env) iv (strBytes x)).length,
         b ≠ (gcmEnc (configKey env) iv (strBytes x)).get ⟨i, h⟩ →
         configDecrypt env
           (some (tamperedCtEnvelope (configKey env) aadPay iv x i b)) = none) ∧
    (∀ (env : Option (List Char)) (iv : List Nat) (x : List Char) (j b : Nat),
       (∀ y ∈ iv, y < 256) → b < 256 →
       ∀ h : j < (gcmTag (configKey env) iv aadPay
                    (gcmEnc (configKey env) iv (strBytes x))).length,
         b ≠ (gcmTag (configKey env) iv aadPay
                (gcmEnc (configKey env) iv (strBytes x))).get ⟨j, h⟩ →
         configDecrypt env
           (some (tamperedTagEnvelope (configKey env) aadPay iv x j b)) = none) ∧
    (∀ (env : Option (List Char)) (iv : List Nat) (x extra : List Char),
       x ≠ [] → (∀ b ∈ iv, b < 256) →
       configDecrypt env
         ((configEncrypt env iv x).map (fun e => e ++ colonChar :: extra)) =
         some x) ∧
    (∀ (env : Option (List Char)) (iv : List Nat) (x g : List Char),
       x ≠ [] → (∀ b ∈ iv, b < 256) →
       (∀ c ∈ g, hexVal c = none) → (∀ c ∈ g, c ≠ colonChar) →
       modelsDecrypt env ((modelsEncrypt env iv x).map (fun e => e ++ g)) =
         some x ∧
       configDecrypt env ((configEncrypt env iv x).map (fun e => e ++ g)) =
         some x) := by
  refine ⟨modelsDecrypt_not3, configDecrypt_lt3, ?_, ?_, ?_, ?_, ?_, ?_⟩
  · intro env iv x i b hiv hb h hne
    unfold tamperedCtEnvelope
    rw [modelsDecrypt_envelope env _ _ _ hiv (gcmTag_lt _ _ _ _)
        (set_lt _ i b hb (gcmEnc_lt _ _ _)),
      decryptParts_ct_tamper (modelsKey env) aadPaymentSystem iv _ i b hiv
        (gcmEnc_lt _ _ _) hb h hne]
  · intro env iv x j b hiv hb h hne
    unfold tamperedTagEnvelope
    rw [modelsDecrypt_envelope env _ _ _ hiv
        (set_lt _ j b hb (gcmTag_lt _ _ _ _)) (gcmEnc_lt _ _ _),
      decryptParts_tag_tamper (modelsKey env) aadPaymentSystem iv _ j b hiv
        (gcmEnc_lt _ _ _) hb h hne]
  · intro env iv x i b hiv hb h hne
    unfold tamperedCtEnvelope
    rw [configDecrypt_envelope env _ _ _ hiv (gcmTag_lt _ _ _ _)
        (set_lt _ i b hb (gcmEnc_lt _ _ _)),
      decryptParts_ct_tamper (configKey env) aadPay iv _ i b hiv
        (gcmEnc_lt _ _ _) hb h hne]
  · intro env iv x j b hiv hb h hne
    unfold tamperedTagEnvelope
    rw [configDecrypt_envelope env _ _ _ hiv
        (set_lt _ j b hb (gcmTag_lt _ _ _ _)) (gcmEnc_lt _ _ _),
      decryptParts_tag_tamper (configKey env) aadPay iv _ j b hiv
        (gcmEnc_lt _ _ _) hb h hne]
  · intro env iv x extra hx hiv
    rw [configEncrypt, encryptWith_eq _ _ _ _ hx, Option.map_some']
    simp only [configDecrypt,
      if_neg (mkEnvelope_append_ne_nil _ _ _ (colonChar :: extra)),
      splitOnChar_mkEnvelope_extra _ _ _ extra hiv (gcmTag_lt _ _ _ _)
        (gcmEnc_lt _ _ _)]
    exact decryptParts_roundtrip _ _ _ _ hiv
  · intro env iv x g hx hiv hg hgc
    constructor
    · rw [modelsEncrypt, encryptWith_eq _ _ _ _ hx, Option.map_some']
      simp only [modelsDecrypt,
        if_neg (mkEnvelope_append_ne_nil _ _ _ g),
        splitOnChar_mkEnvelope_garbage _ _ _ g hiv (gcmTag_lt _ _ _ _)
          (gcmEnc_lt _ _ _) hgc]
      exact decryptParts_roundtrip_garbage _ _ _ _ g hiv hg
    · rw [configEncrypt, encryptWith_eq _ _ _ _ hx, Option.map_some']
      simp only [configDecrypt,
        if_neg (mkEnvelope_append_ne_nil _ _ _ g),
        splitOnChar_mkEnvelope_garbage _ _ _ g hiv (gcmTag_lt _ _ _ _)
          (gcmEnc_lt _ _ _) hgc]
      exact decryptParts_roundtrip_garbage _ _ _ _ g hiv hg

set_option maxRecDepth 4000 in
/-- C4, witness: a non-envelope string, a ciphertext byte flip and a
tag byte flip all decrypt to `null` on concrete data, while an extra
appended part (config) and trailing non-hex garbage (models) leave a
concrete envelope decryptable. -/
theorem c4_witness :
    modelsDecrypt none (some "not-an-envelope".toList) = none ∧
    modelsDecrypt none
      (some (tamperedCtEnvelope (modelsKey none) aadPaymentSystem ivSample
        "hi".toList 0 7)) = none ∧
    modelsDecrypt none
      (some (tamperedTagEnvelope (modelsKey none) aadPaymentSystem ivSample
        "hi".toList 0 7)) = none ∧
    configDecrypt none
      ((configEncrypt none ivSample "hi".toList).map
        (fun e => e ++ colonChar :: "zz".toList)) = some "hi".toList ∧
    modelsDecrypt none
      ((modelsEncrypt none ivSample "hi".toList).map
        (fun e => e ++ "zz".toList)) = some "hi".toList := by
  refine ⟨c4_theorem.1 none _ (by decide), ?_, ?_, ?_, ?_⟩
  · exact c4_theorem.2.2.1 none ivSample "hi".toList 0 7 (by decide) (by decide)
      (by decide) (by decide)
  · exact c4_theorem.2.2.2.1 none ivSample "hi".toList 0 7 (by decide) (by decide)
      (by decide) (by decide)
  · exact c4_theorem.2.2.2.2.2.2.1 none ivSample "hi".toList "zz".toList
      (by decide) (by decide)
  · exact (c4_theorem.2.2.2.2.2.2.2 none ivSample "hi".toList "zz".toList
      (by decide) (by decide) (by decide) (by decide)).1

set_option maxRecDepth 8000 in
/-- C9, counterexample: even with one shared configured secret, the
envelope produced by the config-layer `encrypt` is rejected (`null`)
by the models-layer `decrypt` — the modules bind different AAD tags
(`pay` versus `payment-system`) — although the producing module
itself decrypts it fine.  The implementations are therefore not
equivalent. -/
theorem c9_counterexample :
    modelsDecrypt (some "shared".toList)
      (configEncrypt (some "shared".toList) ivSample "hi".toList) = none ∧
    modelsDecrypt (some "shared".toList)
      (configEncrypt (some "shared".toList) ivSample "hi".toList) ≠
      some "hi".toList ∧
    configDecrypt (some "shared".toList)
      (configEncrypt (some "shared".toList) ivSample "hi".toList) =
      some "hi".toList := by
  refine ⟨by decide, by decide, by decide⟩

/-- C9 (amended): the three cipher modules are not all equivalent.
The models-layer and part_003 ciphers bind the same AAD
(`payment-system`) and are mutually interoperable whenever a common
secret is configured; but every envelope of the config-layer cipher
(AAD `pay`) is rejected by the other two and vice versa, whatever
secrets are configured; and under the default secrets the three
modules derive three pairwise distinct keys. -/
theorem c9_theorem :
    (∀ (s : List Char) (iv : List Nat) (x : List Char),
       s ≠ [] → x ≠ [] → (∀ b ∈ iv, b < 256) →
       part003Decrypt (some s) (modelsEncrypt (some s) iv x) = some x ∧
       modelsDecrypt (some s) (part003Encrypt (some s) iv x) = some x) ∧
    (∀ (env env2 : Option (List Char)) (iv : List Nat) (x : List Char),
       x ≠ [] → (∀ b ∈ iv, b < 256) →
       modelsDecrypt env2 (configEncrypt env iv x) = none ∧
       part003Decrypt env2 (configEncrypt env iv x) = none ∧
       configDecrypt env2 (modelsEncrypt env iv x) = none ∧
       configDecrypt env2 (part003Encrypt env iv x) = none) ∧
    (configKey none ≠ modelsKey none ∧ configKey none ≠ part003Key none ∧
       modelsKey none ≠ part003Key none) := by
  refine ⟨?_, ?_, ?_⟩
  · intro s iv x hs hx hiv
    obtain ⟨hc, hm, hp⟩ := keys_eq_of_env s hs
    constructor
    · rw [modelsEncrypt, encryptWith_eq _ _ _ _ hx,
        part003Decrypt_envelope _ _ _ _ hiv (gcmTag_lt _ _ _ _) (gcmEnc_lt _ _ _),
        hp, hm, decryptParts_roundtrip _ _ _ _ hiv]
    · rw [part003Encrypt, encryptWith_eq _ _ _ _ hx,
        modelsDecrypt_envelope _ _ _ _ hiv (gcmTag_lt _ _ _ _) (gcmEnc_lt _ _ _),
        hp, hm, decryptParts_roundtrip _ _ _ _ hiv]
  · intro env env2 iv x hx hiv
    refine ⟨?_, ?_, ?_, ?_⟩
    · rw [configEncrypt, encryptWith_eq _ _ _ _ hx,
        modelsDecrypt_envelope _ _ _ _ hiv (gcmTag_lt _ _ _ _) (gcmEnc_lt _ _ _),
        decryptParts_pay_into_ps _ _ _ _ hiv (gcmEnc_lt _ _ _)]
    · rw [configEncrypt, encryptWith_eq _ _ _ _ hx,
        part003Decrypt_envelope _ _ _ _ hiv (gcmTag_lt _ _ _ _) (gcmEnc_lt _ _ _),
        decryptParts_pay_into_ps _ _ _ _ hiv (gcmEnc_lt _ _ _)]
    · rw [modelsEncrypt, encryptWith_eq _ _ _ _ hx,
        configDecrypt_envelope _ _ _ _ hiv (gcmTag_lt _ _ _ _) (gcmEnc_lt _ _ _),
        decryptParts_ps_into_pay _ _ _ _ hiv (gcmEnc_lt _ _ _)]
    · rw [part003Encrypt, encryptWith_eq _ _ _ _ hx,
        configDecrypt_envelope _ _ _ _ hiv (gcmTag_lt _ _ _ _) (gcmEnc_lt _ _ _),
        decryptParts_ps_into_pay _ _ _ _ hiv (gcmEnc_lt _ _ _)]
  · refine ⟨by decide, by decide, by decide⟩

set_option maxRecDepth 8000 in
/-- C9, witness: interoperability of the AAD-sharing pair under a
shared secret, and rejection across the AAD boundary, on concrete
data. -/
theorem c9_witness :
    part003Decrypt (some "s3cret".toList)
      (modelsEncrypt (some "s3cret".toList) ivSample "hi".toList) =
      some "hi".toList ∧
    modelsDecrypt (some "s3cret".toList)
      (configEncrypt (some "s3cret".toList) ivSample "hi".toList) = none := by
  constructor
  · exact (c9_theorem.1 "s3cret".toList ivSample "hi".toList (by decide)
      (by decide) (by decide)).1
  · exact (c9_theorem.2.1 (some "s3cret".toList) (some "s3cret".toList) ivSample
      "hi".toList (by decide) (by decide)).1

set_option maxRecDepth 8000 in
/-- C3, counterexample: the Sequelize `Payment` `beforeCreate` hook
encrypts `beneficiaryName` and `beneficiaryAccount` but writes
`swiftCode` through untouched — the persisted SWIFT code is the
plaintext, not a ciphertext envelope. -/
theorem c3_counterexample :
    (paymentBeforeCreate none ivSample ivSample 0 paymentSample).swiftCode =
      some "DEUTDEFF".toList ∧
    envelopeShaped
      ((paymentBeforeCreate none ivSample ivSample 0 paymentSample).swiftCode) =
      false ∧
    envelopeShaped
      ((paymentBeforeCreate none ivSample ivSample 0 paymentSample).beneficiaryName) =
      true ∧
    envelopeShaped
      ((paymentBeforeCreate none ivSample ivSample 0
        paymentSample).beneficiaryAccount) = true := by
  refine ⟨rfl, by decide, by decide, by decide⟩

/-- C3 (amended): in the Sequelize model path only `beneficiaryName`
and `beneficiaryAccount` pass through `encrypt` (on create, and on
update exactly when changed); `swiftCode` is persisted unencrypted.
In the sqlite route path all three beneficiary fields are encrypted.
Everything `encrypt` emits is an `iv:tag:ciphertext` hex envelope. -/
theorem c3_theorem :
    (∀ (env : Option (List Char)) (iv1 iv2 : List Nat) (now : Nat)
       (p : PaymentRec),
       (paymentBeforeCreate env iv1 iv2 now p).beneficiaryName =
         encryptJs env iv1 p.beneficiaryName ∧
       (paymentBeforeCreate env iv1 iv2 now p).beneficiaryAccount =
         encryptJs env iv2 p.beneficiaryAccount ∧
       (paymentBeforeCreate env iv1 iv2 now p).swiftCode = p.swiftCode) ∧
    (∀ (env : Option (List Char)) (iv1 iv2 : List Nat) (cn ca : Bool)
       (p : PaymentRec),
       (paymentBeforeUpdate env iv1 iv2 cn ca p).beneficiaryName =
         (if cn then encryptJs env iv1 p.beneficiaryName
          else p.beneficiaryName) ∧
       (paymentBeforeUpdate env iv1 iv2 cn ca p).beneficiaryAccount =
         (if ca then encryptJs env iv2 p.beneficiaryAccount
          else p.beneficiaryAccount) ∧
       (paymentBeforeUpdate env iv1 iv2 cn ca p).swiftCode = p.swiftCode) ∧
    (∀ (env : Option (List Char)) (iv1 iv2 iv3 : List Nat)
       (acc sw nm : List Char),
       routeCreatePayment env iv1 iv2 iv3 acc sw nm =
         { beneficiaryAccountNumber := modelsEncrypt env iv1 acc
           beneficiarySwiftCode := modelsEncrypt env iv2 sw
           beneficiaryName := modelsEncrypt env iv3 nm }) ∧
    (∀ (env : Option (List Char)) (iv : List Nat) (x : List Char),
       x ≠ [] → (∀ b ∈ iv, b < 256) →
       envelopeShaped (configEncrypt env iv x) = true ∧
       envelopeShaped (modelsEncrypt env iv x) = true) := by
  refine ⟨?_, ?_, ?_, ?_⟩
  · intro env iv1 iv2 now p; exact ⟨rfl, rfl, rfl⟩
  · intro env iv1 iv2 cn ca p; exact ⟨rfl, rfl, rfl⟩
  · intro env iv1 iv2 iv3 acc sw nm; rfl
  · intro env iv x hx hiv
    exact ⟨envelopeShaped_encryptWith _ _ _ _ hx hiv,
      envelopeShaped_encryptWith _ _ _ _ hx hiv⟩

/-- C3, witness: the envelope shape of concrete encryptions. -/
theorem c3_witness :
    envelopeShaped (configEncrypt none ivSample "hi".toList) = true ∧
    envelopeShaped (modelsEncrypt none ivSample "hi".toList) = true :=
  c3_theorem.2.2.2 none ivSample "hi".toList (by decide) (by decide)

/-- C7, counterexample: `validateSwiftCode` uppercases during
sanitization, so an all-lowercase 8-character code is accepted —
the claim that lowercase input is rejected is false. -/
theorem c7_counterexample :
    "deutdeff".toList.all isLowerAlpha = true ∧
    validateSwiftCode (some "deutdeff".toList) = true := by
  refine ⟨by decide, by decide⟩

/-- C7 (amended): `validateSwiftCode` accepts exactly the inputs whose
sanitized form — trimmed, HTML-escaped, uppercased, with every
non-alphanumeric character removed — has length 8 or 11 with six
leading letters followed by alphanumerics.  In particular lowercase
codes are uppercased and accepted, and inputs whose sanitized form has
any other length are rejected. -/
theorem c7_theorem :
    (∀ s : List Char,
       validateSwiftCode (some s) = true ↔
         (((sanitizeSwift s).length = 8 ∨ (sanitizeSwift s).length = 11) ∧
          (∀ c ∈ (sanitizeSwift s).take 6, 65 ≤ c.toNat ∧ c.toNat ≤ 90) ∧
          (∀ c ∈ (sanitizeSwift s).drop 6,
            (65 ≤ c.toNat ∧ c.toNat ≤ 90) ∨ (48 ≤ c.toNat ∧ c.toNat ≤ 57)))) ∧
    validateSwiftCode none = false ∧
    validateSwiftCode (some "deutdeff".toList) = true := by
  refine ⟨?_, rfl, by decide⟩
  intro s
  by_cases hs : s = []
  · subst hs
    constructor
    · intro h; exact absurd h (by decide)
    · rintro ⟨hlen, -, -⟩
      rw [show sanitizeSwift ([] : List Char) = [] from rfl] at hlen
      simp at hlen
  · simp only [validateSwiftCode, if_neg hs, swiftPatternTest,
      Bool.and_eq_true, Bool.or_eq_true, beq_iff_eq, List.all_eq_true,
      isUpperAlpha, isAlnumUpper, isDigitChar, decide_eq_true_eq]
    tauto

set_option maxRecDepth 40000 in
/-- C8: the spec IBAN `GB82WEST12345698765432` validates; replacing
the digit at any position of it by any different digit fails
validation; and in general `validateIban` accepts exactly the inputs
whose sanitized form passes the `[A-Z]{2}\d{2}[A-Z0-9]{1,30}` shape
check and whose rearrangement (first four characters moved to the
end, letters mapped to 10..35) denotes a big decimal number with
remainder 1 mod 97 — the incremental digit-by-digit remainder loop
computes exactly that big-number remainder. -/
theorem c8_theorem :
    validateIban (some ibanSample) = true ∧
    (∀ (i : Fin 22) (d : Fin 10),
       isDigitChar (ibanSample.getD i.val (Char.ofNat 65)) = true →
       Char.ofNat (48 + d.val) ≠ ibanSample.getD i.val (Char.ofNat 65) →
       validateIban (some (ibanSample.set i.val (Char.ofNat (48 + d.val)))) =
         false) ∧
    (∀ s : List Char,
       validateIban (some s) = true ↔
         (ibanFormatTest (sanitizeIban s) = true ∧
          ∃ ds, ibanDigits ((sanitizeIban s).drop 4 ++ (sanitizeIban s).take 4) =
                  some ds ∧
                ibanNumericValue ds % 97 = 1)) := by
  refine ⟨by decide, by decide, ?_⟩
  intro s
  by_cases hs : s = []
  · subst hs
    constructor
    · intro h; exact absurd h (by decide)
    · rintro ⟨hfmt, -⟩
      rw [show sanitizeIban ([] : List Char) = [] from rfl] at hfmt
      exact absurd hfmt (by decide)
  · simp only [validateIban, if_neg hs]
    by_cases hf : ibanFormatTest (sanitizeIban s) = true
    · cases hd : ibanDigits ((sanitizeIban s).drop 4 ++ (sanitizeIban s).take 4) with
      | none => simp [hf, hd]
      | some ds =>
        simp [hf, hd, ibanRemainder_eq_mod, ibanNumericValue]
    · have hf' : ibanFormatTest (sanitizeIban s) = false := by
        revert hf; cases ibanFormatTest (sanitizeIban s) <;> simp
      simp [hf']

/-- C8, witness: altering the first digit of the sample IBAN (the `8`
at position 2, replaced by `0`) fails validation. -/
theorem c8_witness :
    validateIban (some (ibanSample.set 2 (Char.ofNat 48))) = false := by
  have h := c8_theorem.2.1 (⟨2, by omega⟩ : Fin 22) (⟨0, by omega⟩ : Fin 10)
    (by decide) (by decide)
  simpa using h

end INSY7314
